import Mathlib

/-!
Verification of the copy-trading position-synchronization engine.

Shallow embedding of the core of the repository:
- `src/domain/leaderState.ts` (`LeaderState.computeTargets`)
- the follower state module (`FollowerState.computeDeltas`)
- `src/services/tradeExecutor.ts` (`TradeExecutor.buildOrder`, `TradeExecutor.syncWithLeader`)

JavaScript numbers are modelled as rationals (ℚ); binary floating-point
artefacts are outside the model.  Maps keyed by coin are modelled as
association lists in insertion order, matching the iteration order of a
JavaScript `Map`.
-/

namespace CopyTrade

/-- JavaScript `Math.sign`: 1 for positive, -1 for negative, 0 for zero. -/
def signOf (x : ℚ) : ℚ :=
  if 0 < x then 1 else if x < 0 then -1 else 0

/-- Modelled from the spec: `safeDivide` lives in `src/utils/math.ts`, which is
not among the sources; per the spec, division by zero (or a non-finite
operand, which has no counterpart in ℚ) yields the fallback value. -/
def safeDivide (a b fallback : ℚ) : ℚ :=
  if b = 0 then fallback else a / b

/-- Modelled from the spec: `clamp` lives in `src/utils/math.ts`, which is not
among the sources; it restricts a value to the closed interval given by the
lower and upper bounds. -/
def clamp (x lo hi : ℚ) : ℚ :=
  min (max x lo) hi

/-- One open exposure in one market (`PositionSnapshot` in `src/domain/types.ts`). -/
structure PositionSnapshot where
  coin : String
  size : ℚ
  entryPrice : ℚ
deriving DecidableEq, Repr

/-- Account-level metrics for one identity (`AccountMetrics`). -/
structure AccountMetrics where
  accountValueUsd : ℚ
  withdrawableUsd : Option ℚ
deriving DecidableEq, Repr

/-- Modelled from the spec: `TraderStateStore` (`src/domain/traderState.ts`) is
not among the sources.  Per the spec it owns at most one position per coin and
one metrics record; `getPositions()` returns the map of positions, iterated in
insertion order, and `getMetrics()` the metrics.  Positions are modelled as a
list in insertion order. -/
structure TraderStateStore where
  positions : List PositionSnapshot
  metrics : AccountMetrics
deriving DecidableEq, Repr

/-- Lookup of `getPositions().get(coin)` on the modelled store. -/
def TraderStateStore.getPosition (st : TraderStateStore) (coin : String) :
    Option PositionSnapshot :=
  st.positions.find? (fun p => p.coin == coin)

/-- Risk configuration (`RiskConfig` in `src/config/index.ts`, consumed by the
core; fields as used by the embedded functions). -/
structure RiskConfig where
  copyRatio : ℚ
  maxLeverage : ℚ
  maxNotionalUsd : ℚ
  maxSlippageBps : ℚ
deriving DecidableEq, Repr

/-- A target position derived from the leader state
(`TargetPosition` in `src/domain/leaderState.ts`). -/
structure TargetPosition where
  coin : String
  size : ℚ
  notionalUsd : ℚ
  impliedEntryPrice : ℚ
  impliedLeverage : ℚ
deriving DecidableEq, Repr

/-- The difference between current and target position for a coin
(`PositionDelta` in the follower state module). -/
structure PositionDelta where
  coin : String
  current : Option PositionSnapshot
  targetSize : ℚ
  deltaSize : ℚ
  maxNotionalUsd : ℚ
deriving DecidableEq, Repr

/-- `LeaderState.computeTargets` (`src/domain/leaderState.ts`, lines 46-60):
scales every leader position by the copy ratio and annotates it with notional
and implied leverage (`safeDivide` with fallback 0). -/
def computeTargets (st : TraderStateStore) (risk : RiskConfig) :
    List TargetPosition :=
  st.positions.map (fun position =>
    let scaledSize := position.size * risk.copyRatio
    let notionalUsd := |scaledSize| * position.entryPrice
    let impliedLeverage := safeDivide notionalUsd st.metrics.accountValueUsd 0
    { coin := position.coin
      size := scaledSize
      notionalUsd := notionalUsd
      impliedEntryPrice := position.entryPrice
      impliedLeverage := impliedLeverage })

/-- Dust threshold below which a leftover follower position is not closed
(the literal 1e-9 in `FollowerState.computeDeltas`). -/
def closeDustThreshold : ℚ := 1 / 1000000000

/-- `FollowerState.computeDeltas` (follower state module, lines 58-108):
risk-capped deltas for each target, in target order, followed by synthesized
closing deltas for follower positions absent from the targets.  The source
builds `targetCoins` incrementally inside the first loop; by the time the
second loop runs it holds every target coin, which is what is used here. -/
def computeDeltas (fs : TraderStateStore) (targets : List TargetPosition)
    (risk : RiskConfig) : List PositionDelta :=
  let equity := fs.metrics.accountValueUsd
  let leverageCapNotional := risk.maxLeverage * equity
  let globalNotionalCap := min risk.maxNotionalUsd leverageCapNotional
  let targetCoins := targets.map (fun t => t.coin)
  let targetDeltas := targets.map (fun target =>
    let current := fs.getPosition target.coin
    let price := target.impliedEntryPrice
    let allowedNotional := min target.notionalUsd globalNotionalCap
    let allowedSize := signOf target.size * safeDivide allowedNotional price 0
    let currentSize := match current with
      | some c => c.size
      | none => 0
    { coin := target.coin
      current := current
      targetSize := allowedSize
      deltaSize := allowedSize - currentSize
      maxNotionalUsd := allowedNotional })
  let closeDeltas := (fs.positions.filter (fun position =>
      !(targetCoins.contains position.coin) &&
      !(decide (|position.size| < closeDustThreshold)))).map (fun position =>
    { coin := position.coin
      current := some position
      targetSize := 0
      deltaSize := -position.size
      maxNotionalUsd := 0 })
  targetDeltas ++ closeDeltas

/-- Minimum absolute position delta to trigger an order
(`MIN_ABS_DELTA = 1e-6` in `src/services/tradeExecutor.ts`). -/
def MIN_ABS_DELTA : ℚ := 1 / 1000000

/-- Per-market metadata (`MarketMetadata`): asset identifier, trade-size
precision, and the current mark price when one has been loaded.  Modelled from
the spec where the metadata service itself is concerned: the service is not
among the sources; per the spec metadata is loaded once at startup for every
tradable market, so the lookup is modelled as total. -/
structure MarketMetadata where
  coin : String
  assetId : Nat
  sizeDecimals : Nat
  markPrice : Option ℚ
deriving DecidableEq, Repr

/-- Value denoted by JavaScript `x.toFixed(decimals)`: x rounded to the given
number of decimal digits (round half away handled as round half up; no claim
depends on a tie). -/
def roundToFixed (decimals : Nat) (x : ℚ) : ℚ :=
  (round (x * 10 ^ decimals) : ℤ) / 10 ^ decimals

/-- An exchange order as built by `TradeExecutor.buildOrder`.  The price and
size fields are serialized to strings in the source (`price.toString()`,
`size.toFixed(sizeDecimals)`); here they carry the numeric values those
strings denote.  The constant IOC time-in-force marker and the randomly
generated client order identifier are elided: the former is a fixed literal,
the latter is fresh randomness with no bearing on any claim. -/
structure Order where
  a : Nat
  b : Bool
  p : ℚ
  s : ℚ
  r : Bool
deriving DecidableEq, Repr

/-- Reference price used by `buildOrder` (line 126 of
`src/services/tradeExecutor.ts`): mark price, else the current position's
entry price, else 0. -/
def referencePrice (md : MarketMetadata) (delta : PositionDelta) : ℚ :=
  match md.markPrice with
  | some mp => mp
  | none =>
    match delta.current with
    | some c => c.entryPrice
    | none => 0

/-- `TradeExecutor.buildOrder` (`src/services/tradeExecutor.ts`, lines
121-174): IOC limit order with slippage-adjusted, clamped price, size rounded
to the market's size precision, and the reduce-only determination. -/
def buildOrder (md : MarketMetadata) (risk : RiskConfig)
    (delta : PositionDelta) : Order :=
  let markPrice := referencePrice md delta
  let sideIsBuy := decide (0 < delta.deltaSize)
  let slippage := risk.maxSlippageBps / 10000
  let priceMultiplier := if sideIsBuy then 1 + slippage else 1 - slippage
  let price := clamp (markPrice * priceMultiplier) (markPrice * (1 / 10))
    (markPrice * 10)
  let size := |delta.deltaSize|
  let reduceOnly :=
    match delta.current with
    | none => false
    | some cur =>
      if |delta.targetSize| < MIN_ABS_DELTA then true
      else decide (signOf cur.size = signOf delta.targetSize) &&
        decide (|delta.targetSize| < |cur.size|)
  { a := md.assetId
    b := sideIsBuy
    p := price
    s := roundToFixed md.sizeDecimals size
    r := reduceOnly }

/-- An error surfaced by one of the awaited external calls inside a
synchronization pass. -/
structure SyncErr where
  msg : String
deriving DecidableEq, Repr

/-- Observable external side effects of a synchronization pass, in the order
the pass performs them. -/
inductive SyncEffect where
  | ensureLoadedCall : SyncEffect
  | refreshMarkPricesCall : SyncEffect
  | submitBatch : List Order → SyncEffect
deriving DecidableEq, Repr

/-- Environment of one `syncWithLeader` invocation: the state stores and risk
configuration read by the pass, the metadata lookup, and the outcome of each
awaited external call (injected so that every failure path is covered). -/
structure SyncEnv where
  leader : TraderStateStore
  follower : TraderStateStore
  risk : RiskConfig
  metadataByCoin : String → MarketMetadata
  ensureLoadedResult : Except SyncErr Unit
  refreshResult : Except SyncErr Unit
  orderResult : Except SyncErr Unit

/-- Result of one `syncWithLeader` invocation: the executor's `syncing` flag
after the call, the external effects performed, and the error propagated to
the caller, if any. -/
structure SyncResult where
  syncing : Bool
  effects : List SyncEffect
  error : Option SyncErr
deriving Repr

/-- `TradeExecutor.syncWithLeader` (`src/services/tradeExecutor.ts`, lines
64-107), modelled as a function of the executor's `syncing` flag and the
environment.  An invocation that finds the flag set is the guarded early
return; an invocation that finds it clear runs the whole pass atomically (the
flag is set before the first await and cleared in the `finally` block, so in
the single-threaded event loop an overlapping call observes `syncing = true`
for the entire pass). -/
def syncWithLeader (syncing : Bool) (env : SyncEnv) : SyncResult :=
  match syncing with
  | true => { syncing := true, effects := [], error := none }
  | false =>
    match env.ensureLoadedResult with
    | .error e =>
      { syncing := false, effects := [SyncEffect.ensureLoadedCall]
        error := some e }
    | .ok _ =>
      match env.refreshResult with
      | .error e =>
        { syncing := false
          effects := [SyncEffect.ensureLoadedCall,
            SyncEffect.refreshMarkPricesCall]
          error := some e }
      | .ok _ =>
        let targets := computeTargets env.leader env.risk
        let deltas := computeDeltas env.follower targets env.risk
        let actionable := deltas.filter
          (fun delta => decide (MIN_ABS_DELTA < |delta.deltaSize|))
        if actionable.isEmpty then
          { syncing := false
            effects := [SyncEffect.ensureLoadedCall,
              SyncEffect.refreshMarkPricesCall]
            error := none }
        else
          let orders := actionable.map
            (fun delta => buildOrder (env.metadataByCoin delta.coin) env.risk delta)
          match env.orderResult with
          | .error e =>
            { syncing := false
              effects := [SyncEffect.ensureLoadedCall,
                SyncEffect.refreshMarkPricesCall, SyncEffect.submitBatch orders]
              error := some e }
          | .ok _ =>
            { syncing := false
              effects := [SyncEffect.ensureLoadedCall,
                SyncEffect.refreshMarkPricesCall, SyncEffect.submitBatch orders]
              error := none }

/-- Number of batch submission calls among a pass's effects. -/
def submitCount : List SyncEffect → Nat
  | [] => 0
  | SyncEffect.submitBatch _ :: rest => submitCount rest + 1
  | _ :: rest => submitCount rest

/-- C2: an invocation of `syncWithLeader` that finds the `syncing` flag set is
a complete no-op — the flag, the effect trace and the error are exactly those
of a call that did nothing (no queueing, no error, no metadata refresh, no
submission; targets and deltas are only computed on the path that emits the
refresh effects) — and any single invocation performs at most one batch
submission call, so overlapping invocations yield at most one batch
submission per pass. -/
theorem syncWithLeader_single_flight :
    (∀ env : SyncEnv, syncWithLeader true env =
      { syncing := true, effects := [], error := none }) ∧
    (∀ (b : Bool) (env : SyncEnv),
      submitCount (syncWithLeader b env).effects ≤ 1) := by
  constructor
  · intro env
    rfl
  · intro b env
    cases b with
    | true => simp [syncWithLeader, submitCount]
    | false =>
      unfold syncWithLeader
      cases h1 : env.ensureLoadedResult with
      | error e => simp [submitCount]
      | ok u =>
        cases h2 : env.refreshResult with
        | error e => simp [submitCount]
        | ok u2 =>
          cases h3 : env.orderResult with
          | error e =>
            simp only
            split
            · simp [submitCount]
            · simp [submitCount]
          | ok u3 =>
            simp only
            split
            · simp [submitCount]
            · simp [submitCount]

/-- C9: an invocation of `syncWithLeader` that actually starts a pass (the
flag was clear) ends with the `syncing` flag cleared on every exit path —
success, the no-actionable-deltas early return, and every injected failure of
an awaited call — so a failed or thrown pass never leaves the executor unable
to run a subsequent pass. -/
theorem syncWithLeader_resets_flag (env : SyncEnv) :
    (syncWithLeader false env).syncing = false := by
  unfold syncWithLeader
  cases h1 : env.ensureLoadedResult with
  | error e => simp
  | ok u =>
    cases h2 : env.refreshResult with
    | error e => simp
    | ok u2 =>
      cases h3 : env.orderResult with
      | error e =>
        simp only
        split
        · simp
        · simp
      | ok u3 =>
        simp only
        split
        · simp
        · simp

/-- C7: when the batch order submission call fails, `syncWithLeader`
propagates that single error to its caller and has attempted exactly one
batch submission — no per-order or batch retry happens inside the
executor. -/
theorem syncWithLeader_submit_error (env : SyncEnv) (e : SyncErr)
    (h1 : env.ensureLoadedResult = Except.ok ())
    (h2 : env.refreshResult = Except.ok ())
    (h3 : ((computeDeltas env.follower (computeTargets env.leader env.risk)
        env.risk).filter
      (fun delta => decide (MIN_ABS_DELTA < |delta.deltaSize|))).isEmpty = false)
    (h4 : env.orderResult = Except.error e) :
    (syncWithLeader false env).error = some e ∧
    submitCount (syncWithLeader false env).effects = 1 := by
  unfold syncWithLeader
  rw [h1, h2, h4]
  simp [h3, submitCount]

/-- Concrete environment for the submission-failure witness: one leader
position, an empty follower book, and an order call that is rejected. -/
def c7Env : SyncEnv :=
  { leader :=
      { positions := [{ coin := "BTC", size := 10, entryPrice := 50000 }]
        metrics := { accountValueUsd := 100000, withdrawableUsd := none } }
    follower :=
      { positions := []
        metrics := { accountValueUsd := 10000, withdrawableUsd := none } }
    risk :=
      { copyRatio := 1 / 10, maxLeverage := 10, maxNotionalUsd := 1000000
        maxSlippageBps := 25 }
    metadataByCoin := fun c =>
      { coin := c, assetId := 0, sizeDecimals := 3, markPrice := some 50000 }
    ensureLoadedResult := Except.ok ()
    refreshResult := Except.ok ()
    orderResult := Except.error { msg := "rejected" } }

/-- Witness for the submission-failure theorem at the concrete
environment. -/
theorem syncWithLeader_submit_error_witness :
    (syncWithLeader false c7Env).error = some { msg := "rejected" } ∧
    submitCount (syncWithLeader false c7Env).effects = 1 :=
  syncWithLeader_submit_error c7Env { msg := "rejected" } rfl rfl
    (by norm_num [computeDeltas, computeTargets, safeDivide, signOf,
      TraderStateStore.getPosition, MIN_ABS_DELTA, closeDustThreshold, c7Env,
      min_def]) rfl

/-- Risk configuration for the dust-rounding example. -/
def c10Risk : RiskConfig :=
  { copyRatio := 1, maxLeverage := 10, maxNotionalUsd := 1000000
    maxSlippageBps := 25 }

/-- Market metadata for the dust-rounding example: two size decimals, so the
smallest representable size increment is 0.01. -/
def c10Metadata : MarketMetadata :=
  { coin := "ETH", assetId := 4, sizeDecimals := 2, markPrice := some 100 }

/-- A delta whose magnitude 2e-6 passes the 1e-6 dust filter but is smaller
than half of the smallest representable size increment. -/
def c10Delta : PositionDelta :=
  { coin := "ETH", current := none, targetSize := 1 / 500000
    deltaSize := 1 / 500000, maxNotionalUsd := 1000000 }

/-- C10: an actionable delta — its magnitude exceeds the `MIN_ABS_DELTA` dust
filter — can still be smaller than half of the market's smallest
representable size increment, in which case the built order's size (the value
denoted by the `toFixed` string) is zero: the dust filter does not guarantee
a nonzero order size after rounding to the market's size precision. -/
theorem buildOrder_dust_size_rounds_to_zero :
    MIN_ABS_DELTA < |c10Delta.deltaSize| ∧
    |c10Delta.deltaSize| < 1 / 2 * (1 / 10 ^ c10Metadata.sizeDecimals) ∧
    (buildOrder c10Metadata c10Risk c10Delta).s = 0 := by
  have habs : |(1 : ℚ) / 500000| = 1 / 500000 := abs_of_pos (by norm_num)
  refine ⟨?_, ?_, ?_⟩
  · norm_num [MIN_ABS_DELTA, c10Delta, habs]
  · norm_num [c10Delta, c10Metadata, habs]
  · norm_num [buildOrder, roundToFixed, referencePrice, clamp, MIN_ABS_DELTA,
      c10Delta, c10Metadata, c10Risk, round_eq, habs]

/-- C6: `computeTargets` yields exactly one target per stored leader
position, in store order, with size scaled by the copy ratio, notional equal
to the absolute scaled size times the leader entry price, implied entry price
equal to the leader entry price, and implied leverage equal to notional
divided by the leader account value — 0, not a fault, when the account value
is 0.  Purity is inherent to the embedding: `computeTargets` is a function of
the store value and returns only the target list, leaving the store
untouched. -/
theorem computeTargets_spec (st : TraderStateStore) (risk : RiskConfig) :
    (computeTargets st risk).length = st.positions.length ∧
    ∀ (i : Nat) (p : PositionSnapshot), st.positions[i]? = some p →
      ∃ t : TargetPosition, (computeTargets st risk)[i]? = some t ∧
        t.coin = p.coin ∧
        t.size = p.size * risk.copyRatio ∧
        t.notionalUsd = |p.size * risk.copyRatio| * p.entryPrice ∧
        t.impliedEntryPrice = p.entryPrice ∧
        (st.metrics.accountValueUsd = 0 → t.impliedLeverage = 0) ∧
        (st.metrics.accountValueUsd ≠ 0 →
          t.impliedLeverage = t.notionalUsd / st.metrics.accountValueUsd) := by
  constructor
  · simp [computeTargets]
  · intro i p hp
    refine ⟨{ coin := p.coin
              size := p.size * risk.copyRatio
              notionalUsd := |p.size * risk.copyRatio| * p.entryPrice
              impliedEntryPrice := p.entryPrice
              impliedLeverage := safeDivide (|p.size * risk.copyRatio| * p.entryPrice)
                st.metrics.accountValueUsd 0 }, ?_, rfl, rfl, rfl, rfl, ?_, ?_⟩
    · simp only [computeTargets, List.getElem?_map, hp]
      rfl
    · intro h0
      simp [safeDivide, h0]
    · intro h0
      simp [safeDivide, h0]

/-- Leader store for the `computeTargets` witness. -/
def c6Leader : TraderStateStore :=
  { positions := [{ coin := "SOL", size := 4, entryPrice := 200 }]
    metrics := { accountValueUsd := 1000, withdrawableUsd := none } }

/-- Risk configuration for the `computeTargets` witness. -/
def c6Risk : RiskConfig :=
  { copyRatio := 1 / 2, maxLeverage := 5, maxNotionalUsd := 100000
    maxSlippageBps := 10 }

/-- Position looked up by the `computeTargets` witness. -/
def c6Pos : PositionSnapshot := { coin := "SOL", size := 4, entryPrice := 200 }

/-- Witness for the `computeTargets` theorem at a concrete store. -/
theorem computeTargets_spec_witness :
    ∃ t : TargetPosition, (computeTargets c6Leader c6Risk)[0]? = some t ∧
      t.coin = c6Pos.coin ∧
      t.size = c6Pos.size * c6Risk.copyRatio ∧
      t.notionalUsd = |c6Pos.size * c6Risk.copyRatio| * c6Pos.entryPrice ∧
      t.impliedEntryPrice = c6Pos.entryPrice ∧
      (c6Leader.metrics.accountValueUsd = 0 → t.impliedLeverage = 0) ∧
      (c6Leader.metrics.accountValueUsd ≠ 0 →
        t.impliedLeverage = t.notionalUsd / c6Leader.metrics.accountValueUsd) :=
  (computeTargets_spec c6Leader c6Risk).2 0 c6Pos rfl

/-- C4: for a delta the executor actually builds an order for — its delta
size is consistent with target minus current and passes the dust filter —
the reduce-only flag is true exactly when the target size is within the dust
threshold of zero, or when current and target point the same way and the
target magnitude is strictly smaller than the current magnitude; in
particular it is false with no current position (opening fresh) and false on
a direction flip to a non-dust target. -/
theorem buildOrder_reduceOnly_spec (md : MarketMetadata) (risk : RiskConfig)
    (delta : PositionDelta)
    (hwf : delta.deltaSize = delta.targetSize -
      (match delta.current with
        | some c => c.size
        | none => 0))
    (hact : MIN_ABS_DELTA < |delta.deltaSize|) :
    (buildOrder md risk delta).r = true ↔
      (|delta.targetSize| < MIN_ABS_DELTA ∨
        ∃ c, delta.current = some c ∧ signOf c.size = signOf delta.targetSize ∧
          |delta.targetSize| < |c.size|) := by
  cases hcur : delta.current with
  | none =>
    have hds : delta.deltaSize = delta.targetSize := by
      rw [hwf, hcur]
      ring
    rw [hds] at hact
    have hnd : ¬|delta.targetSize| < MIN_ABS_DELTA := not_lt.mpr (le_of_lt hact)
    simp [buildOrder, hcur, hnd]
  | some cur =>
    by_cases hdust : |delta.targetSize| < MIN_ABS_DELTA
    · simp [buildOrder, hcur, hdust]
    · simp [buildOrder, hcur, hdust]

/-- Metadata for the reduce-only witness. -/
def c4Metadata : MarketMetadata :=
  { coin := "ETH", assetId := 1, sizeDecimals := 4, markPrice := some 2000 }

/-- Risk configuration for the reduce-only witness. -/
def c4Risk : RiskConfig :=
  { copyRatio := 1, maxLeverage := 10, maxNotionalUsd := 1000000
    maxSlippageBps := 25 }

/-- The leader-fully-closes scenario: the follower still holds 2 ETH long and
the synthesized delta is -2 with target size 0. -/
def c4Delta : PositionDelta :=
  { coin := "ETH", current := some { coin := "ETH", size := 2, entryPrice := 2000 }
    targetSize := 0, deltaSize := -2, maxNotionalUsd := 0 }

/-- Witness for the reduce-only theorem at the leader-fully-closes
scenario. -/
theorem buildOrder_reduceOnly_spec_witness :
    c4Delta.deltaSize = c4Delta.targetSize -
      (match c4Delta.current with
        | some c => c.size
        | none => 0) ∧
    MIN_ABS_DELTA < |c4Delta.deltaSize| ∧
    ((buildOrder c4Metadata c4Risk c4Delta).r = true ↔
      (|c4Delta.targetSize| < MIN_ABS_DELTA ∨
        ∃ c, c4Delta.current = some c ∧
          signOf c.size = signOf c4Delta.targetSize ∧
          |c4Delta.targetSize| < |c.size|)) := by
  have habs : |c4Delta.deltaSize| = 2 := by
    rw [show c4Delta.deltaSize = -2 from rfl, abs_neg]
    exact abs_of_pos (by norm_num)
  refine ⟨by norm_num [c4Delta], ?_,
    buildOrder_reduceOnly_spec c4Metadata c4Risk c4Delta (by norm_num [c4Delta]) ?_⟩
  · rw [habs]
    norm_num [MIN_ABS_DELTA]
  · rw [habs]
    norm_num [MIN_ABS_DELTA]

/-- C5: the order side is buy exactly when the delta size is positive; the
limit price is the reference price times (1 + slippage) for buys and
(1 - slippage) for sells, clamped to the interval from 0.1 to 10 times the
reference price, where the reference price is the mark price, else the
current position's entry price, else 0; with no mark price and no current
position the built price is 0, not a fault. -/
theorem buildOrder_side_and_price (md : MarketMetadata) (risk : RiskConfig)
    (delta : PositionDelta) (href : 0 ≤ referencePrice md delta) :
    ((buildOrder md risk delta).b = true ↔ 0 < delta.deltaSize) ∧
    (buildOrder md risk delta).p =
      clamp (referencePrice md delta *
        (if 0 < delta.deltaSize then 1 + risk.maxSlippageBps / 10000
          else 1 - risk.maxSlippageBps / 10000))
        (referencePrice md delta * (1 / 10)) (referencePrice md delta * 10) ∧
    referencePrice md delta * (1 / 10) ≤ (buildOrder md risk delta).p ∧
    (buildOrder md risk delta).p ≤ referencePrice md delta * 10 ∧
    (md.markPrice = none → delta.current = none →
      (buildOrder md risk delta).p = 0) := by
  have hp : (buildOrder md risk delta).p =
      clamp (referencePrice md delta *
        (if 0 < delta.deltaSize then 1 + risk.maxSlippageBps / 10000
          else 1 - risk.maxSlippageBps / 10000))
        (referencePrice md delta * (1 / 10)) (referencePrice md delta * 10) := by
    simp [buildOrder]
  have hlohi : referencePrice md delta * (1 / 10) ≤ referencePrice md delta * 10 :=
    mul_le_mul_of_nonneg_left (by norm_num) href
  refine ⟨by simp [buildOrder], hp, ?_, ?_, ?_⟩
  · rw [hp]
    unfold clamp
    exact le_min (le_max_right _ _) hlohi
  · rw [hp]
    unfold clamp
    exact min_le_right _ _
  · intro h1 h2
    have h0 : referencePrice md delta = 0 := by
      simp [referencePrice, h1, h2]
    rw [hp, h0]
    simp [clamp]

/-- Metadata for the side-and-price witness. -/
def c5Metadata : MarketMetadata :=
  { coin := "BTC", assetId := 0, sizeDecimals := 3, markPrice := some 100 }

/-- Risk configuration for the side-and-price witness. -/
def c5Risk : RiskConfig :=
  { copyRatio := 1, maxLeverage := 10, maxNotionalUsd := 1000000
    maxSlippageBps := 25 }

/-- Delta for the side-and-price witness. -/
def c5Delta : PositionDelta :=
  { coin := "BTC", current := none, targetSize := 1, deltaSize := 1
    maxNotionalUsd := 50000 }

/-- Witness for the side-and-price theorem at a concrete order. -/
theorem buildOrder_side_and_price_witness :
    0 ≤ referencePrice c5Metadata c5Delta ∧
    (((buildOrder c5Metadata c5Risk c5Delta).b = true ↔ 0 < c5Delta.deltaSize) ∧
    (buildOrder c5Metadata c5Risk c5Delta).p =
      clamp (referencePrice c5Metadata c5Delta *
        (if 0 < c5Delta.deltaSize then 1 + c5Risk.maxSlippageBps / 10000
          else 1 - c5Risk.maxSlippageBps / 10000))
        (referencePrice c5Metadata c5Delta * (1 / 10))
        (referencePrice c5Metadata c5Delta * 10) ∧
    referencePrice c5Metadata c5Delta * (1 / 10) ≤
      (buildOrder c5Metadata c5Risk c5Delta).p ∧
    (buildOrder c5Metadata c5Risk c5Delta).p ≤
      referencePrice c5Metadata c5Delta * 10 ∧
    (c5Metadata.markPrice = none → c5Delta.current = none →
      (buildOrder c5Metadata c5Risk c5Delta).p = 0)) :=
  ⟨by norm_num [referencePrice, c5Metadata],
    buildOrder_side_and_price c5Metadata c5Risk c5Delta
      (by norm_num [referencePrice, c5Metadata])⟩

/-- The sign function has magnitude at most one. -/
theorem abs_signOf_le_one (x : ℚ) : |signOf x| ≤ 1 := by
  unfold signOf
  split
  · norm_num
  · split
    · norm_num
    · norm_num

/-- Scaling a positive quantity by the sign of a value keeps that value's
sign. -/
theorem signOf_signOf_mul (s q : ℚ) (hq : 0 < q) :
    signOf (signOf s * q) = signOf s := by
  unfold signOf
  split_ifs <;> first | rfl | nlinarith

/-- Reference price for the i-th delta of a pass: the i-th target's implied
entry price for target-derived deltas, 0 for the synthesized closing deltas
beyond the targets. -/
def refPriceAt (targets : List TargetPosition) (i : Nat) : ℚ :=
  match targets[i]? with
  | some t => t.impliedEntryPrice
  | none => 0

/-- The i-th delta of `computeDeltas`, for i within the targets, is the
risk-capped delta of the i-th target. -/
theorem computeDeltas_getElem?_lt (fs : TraderStateStore)
    (targets : List TargetPosition) (risk : RiskConfig)
    (i : Nat) (t : TargetPosition) (ht : targets[i]? = some t) :
    (computeDeltas fs targets risk)[i]? = some
      { coin := t.coin
        current := fs.getPosition t.coin
        targetSize := signOf t.size * safeDivide
          (min t.notionalUsd (min risk.maxNotionalUsd
            (risk.maxLeverage * fs.metrics.accountValueUsd)))
          t.impliedEntryPrice 0
        deltaSize := signOf t.size * safeDivide
          (min t.notionalUsd (min risk.maxNotionalUsd
            (risk.maxLeverage * fs.metrics.accountValueUsd)))
          t.impliedEntryPrice 0 -
          (match fs.getPosition t.coin with
            | some c => c.size
            | none => 0)
        maxNotionalUsd := min t.notionalUsd (min risk.maxNotionalUsd
          (risk.maxLeverage * fs.metrics.accountValueUsd)) } := by
  have hlen : i < targets.length := (List.getElem?_eq_some.mp ht).1
  simp only [computeDeltas]
  rw [List.getElem?_append, if_pos (by simpa using hlen), List.getElem?_map, ht]
  rfl

/-- C1: every delta of a pass respects the global notional cap — the capped
target size times the reference price (the matching target's implied entry
price for target-derived deltas, 0 for synthesized closes) never exceeds
min(maxNotionalUsd, maxLeverage × follower account value); the claim's ε
slack is not even needed.  Hypotheses are the data-model invariants: a
non-negative hard notional cap, a non-negative leverage cap (maxLeverage and
the follower account value are non-negative by construction), and
non-negative target notionals as `computeTargets` produces them. -/
theorem computeDeltas_notional_cap (fs : TraderStateStore)
    (targets : List TargetPosition) (risk : RiskConfig)
    (hN : 0 ≤ risk.maxNotionalUsd)
    (hL : 0 ≤ risk.maxLeverage * fs.metrics.accountValueUsd)
    (hT : ∀ t ∈ targets, 0 ≤ t.notionalUsd)
    (i : Nat) (d : PositionDelta)
    (hd : (computeDeltas fs targets risk)[i]? = some d) :
    |d.targetSize| * refPriceAt targets i ≤
      min risk.maxNotionalUsd (risk.maxLeverage * fs.metrics.accountValueUsd) := by
  set cap := min risk.maxNotionalUsd (risk.maxLeverage * fs.metrics.accountValueUsd)
    with hcapdef
  have hcap : 0 ≤ cap := le_min hN hL
  by_cases hlen : i < targets.length
  · obtain ⟨t, ht⟩ : ∃ t, targets[i]? = some t :=
      ⟨_, List.getElem?_eq_getElem hlen⟩
    have hrp : refPriceAt targets i = t.impliedEntryPrice := by
      simp [refPriceAt, ht]
    have hdval := computeDeltas_getElem?_lt fs targets risk i t ht
    rw [hd] at hdval
    have hdts : d.targetSize = signOf t.size * safeDivide
        (min t.notionalUsd cap) t.impliedEntryPrice 0 := by
      rw [Option.some_inj.mp hdval]
    set a := min t.notionalUsd cap with hadef
    have ha : 0 ≤ a := le_min (hT t (List.getElem?_mem ht)) hcap
    have hacap : a ≤ cap := min_le_right _ _
    rw [hrp, hdts]
    by_cases hp0 : t.impliedEntryPrice = 0
    · rw [hp0]
      simp [hcap]
    · rw [safeDivide, if_neg hp0]
      rcases lt_or_gt_of_ne hp0 with hpneg | hppos
      · exact le_trans (mul_nonpos_of_nonneg_of_nonpos (abs_nonneg _)
          (le_of_lt hpneg)) hcap
      · have hq : 0 ≤ a / t.impliedEntryPrice :=
          div_nonneg ha (le_of_lt hppos)
        have habs : |signOf t.size * (a / t.impliedEntryPrice)| ≤
            a / t.impliedEntryPrice := by
          rw [abs_mul, abs_of_nonneg hq]
          exact mul_le_of_le_one_left hq (abs_signOf_le_one _)
        calc |signOf t.size * (a / t.impliedEntryPrice)| * t.impliedEntryPrice
            ≤ (a / t.impliedEntryPrice) * t.impliedEntryPrice :=
              mul_le_mul_of_nonneg_right habs (le_of_lt hppos)
          _ = a := div_mul_cancel₀ a hp0
          _ ≤ cap := hacap
  · have hnone : targets[i]? = none := List.getElem?_eq_none (le_of_not_lt hlen)
    have hrp : refPriceAt targets i = 0 := by
      simp [refPriceAt, hnone]
    rw [hrp, mul_zero]
    exact hcap

/-- Follower store for the notional-cap witness. -/
def c1Follower : TraderStateStore :=
  { positions := []
    metrics := { accountValueUsd := 10000, withdrawableUsd := none } }

/-- Risk configuration for the notional-cap witness. -/
def c1Risk : RiskConfig :=
  { copyRatio := 1 / 10, maxLeverage := 10, maxNotionalUsd := 1000000
    maxSlippageBps := 25 }

/-- Target for the notional-cap witness. -/
def c1Target : TargetPosition :=
  { coin := "BTC", size := 1, notionalUsd := 50000, impliedEntryPrice := 50000
    impliedLeverage := 1 / 2 }

/-- Delta produced for the notional-cap witness target. -/
def c1Delta : PositionDelta :=
  { coin := "BTC", current := none, targetSize := 1, deltaSize := 1
    maxNotionalUsd := 50000 }

/-- Witness for the notional-cap theorem at a concrete pass. -/
theorem computeDeltas_notional_cap_witness :
    |c1Delta.targetSize| * refPriceAt [c1Target] 0 ≤
      min c1Risk.maxNotionalUsd
        (c1Risk.maxLeverage * c1Follower.metrics.accountValueUsd) :=
  computeDeltas_notional_cap c1Follower [c1Target] c1Risk
    (by norm_num [c1Risk]) (by norm_num [c1Risk, c1Follower])
    (by intro t htt
        simp only [List.mem_singleton] at htt
        rw [htt]
        norm_num [c1Target])
    0 c1Delta
    (by rw [computeDeltas_getElem?_lt c1Follower [c1Target] c1Risk 0 c1Target rfl]
        norm_num [c1Delta, c1Target, c1Risk, c1Follower, safeDivide, signOf,
          TraderStateStore.getPosition, min_def])

/-- Target with a negative implied entry price, refuting the unamended sign
claim. -/
def c8Target : TargetPosition :=
  { coin := "XRP", size := 1, notionalUsd := 5, impliedEntryPrice := -1
    impliedLeverage := 0 }

/-- Risk configuration for the sign counterexample. -/
def c8Risk : RiskConfig :=
  { copyRatio := 1, maxLeverage := 1, maxNotionalUsd := 10, maxSlippageBps := 0 }

/-- Follower store for the sign counterexample. -/
def c8Follower : TraderStateStore :=
  { positions := []
    metrics := { accountValueUsd := 10, withdrawableUsd := none } }

/-- C8 counterexample: with maxNotionalUsd ≥ 0, maxLeverage × account value
≥ 0 and target notional ≥ 0 but a negative implied entry price, the
target-derived delta's target size is -5 while the target's size is +1 —
neither zero nor of the same sign — so the claim as stated fails. -/
theorem computeDeltas_sign_counterexample :
    0 ≤ c8Risk.maxNotionalUsd ∧
    0 ≤ c8Risk.maxLeverage * c8Follower.metrics.accountValueUsd ∧
    0 ≤ c8Target.notionalUsd ∧
    (∃ d : PositionDelta,
      (computeDeltas c8Follower [c8Target] c8Risk)[0]? = some d ∧
      ¬(d.targetSize = 0 ∨ signOf d.targetSize = signOf c8Target.size)) := by
  refine ⟨by norm_num [c8Risk], by norm_num [c8Risk, c8Follower],
    by norm_num [c8Target], ?_⟩
  refine ⟨_, computeDeltas_getElem?_lt c8Follower [c8Target] c8Risk 0 c8Target rfl, ?_⟩
  have hts : signOf c8Target.size * safeDivide
      (min c8Target.notionalUsd (min c8Risk.maxNotionalUsd
        (c8Risk.maxLeverage * c8Follower.metrics.accountValueUsd)))
      c8Target.impliedEntryPrice 0 = -5 := by
    norm_num [c8Target, c8Risk, c8Follower, safeDivide, signOf, min_def]
  simp only [hts]
  rw [not_or]
  constructor
  · norm_num
  · rw [show signOf (-5) = -1 by norm_num [signOf],
      show signOf c8Target.size = 1 by norm_num [signOf, c8Target]]
    norm_num

/-- C8 amended: under the additional hypothesis that the target's implied
entry price is non-negative (true of every target `computeTargets` produces,
since stored entry prices are non-negative), the risk-capped target size is
zero or has the sign of the leader target's size. -/
theorem computeDeltas_sign_aligned (fs : TraderStateStore)
    (targets : List TargetPosition) (risk : RiskConfig)
    (hN : 0 ≤ risk.maxNotionalUsd)
    (hL : 0 ≤ risk.maxLeverage * fs.metrics.accountValueUsd)
    (i : Nat) (t : TargetPosition) (ht : targets[i]? = some t)
    (hnot : 0 ≤ t.notionalUsd) (hp : 0 ≤ t.impliedEntryPrice)
    (d : PositionDelta)
    (hd : (computeDeltas fs targets risk)[i]? = some d) :
    d.targetSize = 0 ∨ signOf d.targetSize = signOf t.size := by
  have hdval := computeDeltas_getElem?_lt fs targets risk i t ht
  rw [hd] at hdval
  have hdts : d.targetSize = signOf t.size * safeDivide
      (min t.notionalUsd (min risk.maxNotionalUsd
        (risk.maxLeverage * fs.metrics.accountValueUsd)))
      t.impliedEntryPrice 0 := by
    rw [Option.some_inj.mp hdval]
  set a := min t.notionalUsd (min risk.maxNotionalUsd
    (risk.maxLeverage * fs.metrics.accountValueUsd)) with hadef
  have ha : 0 ≤ a := le_min hnot (le_min hN hL)
  by_cases hp0 : t.impliedEntryPrice = 0
  · left
    rw [hdts, safeDivide, if_pos hp0, mul_zero]
  · have hppos : 0 < t.impliedEntryPrice := lt_of_le_of_ne hp (Ne.symm hp0)
    have hq : 0 ≤ a / t.impliedEntryPrice := div_nonneg ha (le_of_lt hppos)
    rcases eq_or_lt_of_le hq with hq0 | hqpos
    · left
      rw [hdts, safeDivide, if_neg hp0, ← hq0, mul_zero]
    · right
      rw [hdts, safeDivide, if_neg hp0]
      exact signOf_signOf_mul t.size (a / t.impliedEntryPrice) hqpos

/-- Target for the amended sign theorem's witness. -/
def c8wTarget : TargetPosition :=
  { coin := "BTC", size := 2, notionalUsd := 100, impliedEntryPrice := 50
    impliedLeverage := 1 }

/-- Witness for the amended sign theorem at a concrete target. -/
theorem computeDeltas_sign_aligned_witness :
    ∃ d : PositionDelta,
      (computeDeltas c8Follower [c8wTarget] c8Risk)[0]? = some d ∧
      (d.targetSize = 0 ∨ signOf d.targetSize = signOf c8wTarget.size) :=
  ⟨_, computeDeltas_getElem?_lt c8Follower [c8wTarget] c8Risk 0 c8wTarget rfl,
    computeDeltas_sign_aligned c8Follower [c8wTarget] c8Risk
      (by norm_num [c8Risk]) (by norm_num [c8Risk, c8Follower])
      0 c8wTarget rfl (by norm_num [c8wTarget]) (by norm_num [c8wTarget]) _
      (computeDeltas_getElem?_lt c8Follower [c8wTarget] c8Risk 0 c8wTarget rfl)⟩

/-- C3: the first `targets.length` deltas of a pass are the target-derived
deltas in the order of the targets input; every delta after them is a
synthesized closing delta — target size 0, maxNotionalUsd 0, delta equal to
minus the size of a follower position whose coin is absent from the targets
and whose magnitude is not below the dust threshold; every follower position
with a coin absent from the targets and magnitude above the dust threshold
gets such a closing delta; and a position below the dust threshold yields no
delta at all.  The store holds at most one position per coin (the map
invariant), which the Nodup hypothesis expresses. -/
theorem computeDeltas_closes_spec (fs : TraderStateStore)
    (targets : List TargetPosition) (risk : RiskConfig)
    (hnd : (fs.positions.map (fun p => p.coin)).Nodup) :
    (((computeDeltas fs targets risk).take targets.length).map
        (fun d => d.coin) = targets.map (fun t => t.coin)) ∧
    (∀ d ∈ (computeDeltas fs targets risk).drop targets.length,
      d.targetSize = 0 ∧ d.maxNotionalUsd = 0 ∧
      ∃ p, d.current = some p ∧ d.deltaSize = -p.size ∧ p ∈ fs.positions ∧
        p.coin ∉ targets.map (fun t => t.coin) ∧
        ¬|p.size| < closeDustThreshold) ∧
    (∀ p ∈ fs.positions, p.coin ∉ targets.map (fun t => t.coin) →
      closeDustThreshold < |p.size| →
      ∃ d ∈ (computeDeltas fs targets risk).drop targets.length,
        d.coin = p.coin ∧ d.current = some p ∧ d.targetSize = 0 ∧
        d.deltaSize = -p.size ∧ d.maxNotionalUsd = 0) ∧
    (∀ p ∈ fs.positions, p.coin ∉ targets.map (fun t => t.coin) →
      |p.size| < closeDustThreshold →
      ∀ d ∈ computeDeltas fs targets risk, d.coin ≠ p.coin) := by
  have hdrop : (computeDeltas fs targets risk).drop targets.length =
      (fs.positions.filter (fun position =>
        !((targets.map (fun t => t.coin)).contains position.coin) &&
        !(decide (|position.size| < closeDustThreshold)))).map (fun position =>
      { coin := position.coin, current := some position, targetSize := 0,
        deltaSize := -position.size, maxNotionalUsd := 0 }) := by
    simp only [computeDeltas]
    exact List.drop_left' (by simp)
  refine ⟨?_, ?_, ?_, ?_⟩
  · simp only [computeDeltas]
    rw [List.take_left' (by simp), List.map_map]
    rfl
  · intro d hd
    rw [hdrop] at hd
    obtain ⟨p, hpmem, rfl⟩ := List.mem_map.mp hd
    obtain ⟨hpos, hpred⟩ := List.mem_filter.mp hpmem
    simp only [Bool.and_eq_true, Bool.not_eq_true',
      decide_eq_false_iff_not] at hpred
    obtain ⟨hcont, hdust⟩ := hpred
    have hnotin : p.coin ∉ targets.map (fun t => t.coin) := by
      simpa using hcont
    exact ⟨rfl, rfl, p, rfl, rfl, hpos, hnotin, hdust⟩
  · intro p hp hnotin hdust
    rw [hdrop]
    refine ⟨_, List.mem_map_of_mem _ (List.mem_filter.mpr ⟨hp, ?_⟩),
      rfl, rfl, rfl, rfl, rfl⟩
    simp only [Bool.and_eq_true, Bool.not_eq_true', decide_eq_false_iff_not]
    exact ⟨by simpa using hnotin, not_lt.mpr (le_of_lt hdust)⟩
  · intro p hp hnotin hdust d hd
    rcases List.mem_append.mp (by simpa only [computeDeltas] using hd) with hA | hB
    · obtain ⟨t, htmem, rfl⟩ := List.mem_map.mp hA
      intro hceq
      exact hnotin (hceq ▸ List.mem_map_of_mem (fun t => t.coin) htmem)
    · obtain ⟨q, hqmem, rfl⟩ := List.mem_map.mp hB
      obtain ⟨hqpos, hqpred⟩ := List.mem_filter.mp hqmem
      intro hceq
      have hqp : q = p := List.inj_on_of_nodup_map hnd hqpos hp hceq
      rw [hqp] at hqpred
      simp only [Bool.and_eq_true, Bool.not_eq_true',
        decide_eq_false_iff_not] at hqpred
      exact hqpred.2 hdust

/-- Target for the closing-deltas witness. -/
def c3Target : TargetPosition :=
  { coin := "BTC", size := 1, notionalUsd := 50000, impliedEntryPrice := 50000
    impliedLeverage := 1 }

/-- A leftover follower position the leader does not hold. -/
def c3Pos : PositionSnapshot := { coin := "DOGE", size := 3, entryPrice := 1 / 10 }

/-- Follower store for the closing-deltas witness. -/
def c3Follower : TraderStateStore :=
  { positions := [c3Pos]
    metrics := { accountValueUsd := 10000, withdrawableUsd := none } }

/-- Risk configuration for the closing-deltas witness. -/
def c3Risk : RiskConfig :=
  { copyRatio := 1, maxLeverage := 10, maxNotionalUsd := 1000000
    maxSlippageBps := 25 }

/-- Witness for the closing-deltas theorem: the leftover DOGE position gets a
synthesized closing delta after the target-derived deltas. -/
theorem computeDeltas_closes_spec_witness :
    ∃ d ∈ (computeDeltas c3Follower [c3Target] c3Risk).drop
        ([c3Target] : List TargetPosition).length,
      d.coin = c3Pos.coin ∧ d.current = some c3Pos ∧ d.targetSize = 0 ∧
      d.deltaSize = -c3Pos.size ∧ d.maxNotionalUsd = 0 :=
  (computeDeltas_closes_spec c3Follower [c3Target] c3Risk
      (by simp [c3Follower])).2.2.1 c3Pos
    (by simp [c3Follower])
    (by simp [c3Pos, c3Target])
    (by rw [show |c3Pos.size| = 3 from abs_of_pos (by norm_num [c3Pos])]
        norm_num [closeDustThreshold])

end CopyTrade
